import Mathlib

/-!
Shallow embedding of the query-routing and tool-resolution engine of the
yahoo-finance-mcp-server repository.

The two source files carrying the logic under verification are
`src/llm-query-processor.js` (intent classification: `processQuery`,
`fallbackProcessing`, `extractSymbol`) and `src/mcp-http-bridge.js`
(tool registry capability derivation `extractToolCapabilities`, the
bridge-level symbol resolver `extractSymbol`/`extractCompanyNames`, and the
`/analyze` endpoint with its fallback chain).

JavaScript strings are modelled as Lean `String`, processed through
character-code (`Nat`) helpers so that all definitions are structurally
recursive and evaluable by the kernel.  JavaScript numbers holding
confidences are modelled as `Rat`; counts as `Nat`.  External effects
(the Ollama HTTP call, the MCP stdio exchange) are modelled as explicit
outcome values / oracle functions passed to the embedded control flow.
-/

/-! ### Character and string helpers (ASCII, mirroring the JS operations used) -/

/-- Code of a character after JS `toLowerCase` (ASCII range, which is all the
source ever feeds it). -/
def lcCode (n : Nat) : Nat := if 65 ≤ n ∧ n ≤ 90 then n + 32 else n

/-- The code points of a string. -/
def codes (s : String) : List Nat := s.data.map Char.toNat

/-- The code points of `s.toLowerCase()`. -/
def lcCodes (s : String) : List Nat := (codes s).map lcCode

/-- `pat` is a prefix of `l` (on code points). -/
def segStarts : List Nat → List Nat → Bool
  | [], _ => true
  | _ :: _, [] => false
  | p :: ps, x :: xs => p == x && segStarts ps xs

/-- `pat` occurs as a contiguous segment of `l` (JS `String.includes`). -/
def containsSeg (pat : List Nat) : List Nat → Bool
  | [] => segStarts pat []
  | x :: xs => segStarts pat (x :: xs) || containsSeg pat xs

/-- JS `query.includes(pat)` where `query` has been lowercased
(`pat` is lowercased too; all source patterns are already lowercase). -/
def inclLC (s pat : String) : Bool := containsSeg (lcCodes pat) (lcCodes s)

/-- JS case-sensitive `s.includes(pat)`. -/
def inclCS (s pat : String) : Bool := containsSeg (codes pat) (codes s)

/-- JS word character (`\w` = `[A-Za-z0-9_]`). -/
def isWordCh (c : Char) : Bool :=
  (48 ≤ c.toNat && c.toNat ≤ 57) || (65 ≤ c.toNat && c.toNat ≤ 90) ||
  (97 ≤ c.toNat && c.toNat ≤ 122) || c.toNat == 95

/-- ASCII uppercase letter (`[A-Z]`). -/
def isUpperCh (c : Char) : Bool := 65 ≤ c.toNat && c.toNat ≤ 90

/-- ASCII digit. -/
def isDigitCh (c : Char) : Bool := 48 ≤ c.toNat && c.toNat ≤ 57

/-- Value of the maximal digit run continuing `acc` (JS `parseInt` on the
captured digits of `/(\d+)/`). -/
def natOfRun (acc : Nat) : List Nat → Nat
  | [] => acc
  | c :: cs => if 48 ≤ c ∧ c ≤ 57 then natOfRun (acc * 10 + (c - 48)) cs else acc

/-- First integer literal in the text: JS `text.match(/(\d+)/)` + `parseInt`. -/
def firstNat : List Nat → Option Nat
  | [] => none
  | c :: cs => if 48 ≤ c ∧ c ≤ 57 then some (natOfRun (c - 48) cs) else firstNat cs

/-- Maximal run of uppercase letters at the head of the list. -/
def upperRun : List Char → List Char
  | [] => []
  | c :: cs => if isUpperCh c then c :: upperRun cs else []

/-- All matches of the JS regex `\b[A-Z]{lo,hi}\b` over the character list,
scanned left to right (the `prevWord` flag says whether the previous character
was a word character, i.e. whether a `\b` boundary is absent).  A candidate is
a maximal uppercase run of length in `[lo, hi]` whose follower is not a word
character; runs outside the length window, or followed by a word character,
match nothing (every shorter greedy backtrack ends on a word character).
Scanning resumes at the next character, which agrees with the `/g` rule of
resuming after the match: no position strictly inside or directly after an
uppercase run starts with a word boundary and an uppercase letter. -/
def upperMatches (lo hi : Nat) : List Char → Bool → List (List Char)
  | [], _ => []
  | c :: cs, prevWord =>
    if !prevWord && isUpperCh c then
      let run := c :: upperRun cs
      let k := run.length
      let after := cs.drop (k - 1)
      if lo ≤ k && k ≤ hi && (match after with | [] => true | r :: _ => !isWordCh r) then
        run :: upperMatches lo hi cs true
      else
        upperMatches lo hi cs true
    else
      upperMatches lo hi cs (isWordCh c)

/-- First match of `\b[A-Z]{lo,hi}\b` as a string (JS `match` without `/g`). -/
def firstUpperToken (lo hi : Nat) (s : String) : Option String :=
  (upperMatches lo hi s.data false).head?.map String.mk

/-- Order-preserving deduplication (JS `[...new Set(xs)]`). -/
def dedupAux (seen : List String) : List String → List String
  | [] => []
  | x :: xs => if seen.contains x then dedupAux seen xs
               else x :: dedupAux (x :: seen) xs

/-- JS `[...new Set(xs)]`. -/
def dedup (xs : List String) : List String := dedupAux [] xs

/-- JS `xs.join(', ')`. -/
def joinComma : List String → String
  | [] => ""
  | [x] => x
  | x :: xs => x ++ ", " ++ joinComma xs

/-- ASCII whitespace (the whitespace the source's inputs contain). -/
def isWS (c : Char) : Bool := c == ' ' || c == '\t' || c == '\n' || c == '\r'

/-- JS `String.trim` (ASCII whitespace). -/
def trimStr (s : String) : String :=
  String.mk (((s.data.dropWhile isWS).reverse.dropWhile isWS).reverse)

/-! ### Data model -/

/-- The parameter mapping a classification or tool call carries
(`parameters` / `arguments` objects in the source; absent fields are
`undefined` in JS, `none` here). -/
structure Args where
  symbol : Option String := none
  count : Option Nat := none
  query : Option String := none
  criteria : Option String := none
  sort : Option String := none
deriving DecidableEq

/-- Result of a query classification (`processQuery` / `fallbackProcessing`
return shape). -/
structure ClassificationResult where
  tool : String
  parameters : Args
  reasoning : String
  confidence : Rat
  source : String
deriving DecidableEq

namespace LLMQP

/-! Embedding of `src/llm-query-processor.js`. -/

/-- Timeout (ms) of the Ollama status check (`checkOllamaStatus`). -/
def ollamaStatusTimeoutMs : Nat := 3000

/-- Timeout (ms) of the Ollama `/api/generate` call inside `processQuery`. -/
def generateTimeoutMs : Nat := 10000

/-- Timeout (ms) of the `/api/generate` call inside
`generateWidgetSuggestions`. -/
def suggestionsTimeoutMs : Nat := 8000

/-- The company-name map inside `extractSymbol` (insertion order preserved,
as JS `Object.entries` iterates it). -/
def extractSymbolCompanyMap : List (String × String) :=
  [("apple", "AAPL"), ("microsoft", "MSFT"), ("google", "GOOGL"),
   ("amazon", "AMZN"), ("tesla", "TSLA"), ("meta", "META"),
   ("nvidia", "NVDA"), ("netflix", "NFLX"), ("ford", "F"),
   ("general motors", "GM"), ("berkshire", "BRK.A"), ("jpmorgan", "JPM"),
   ("bank of america", "BAC"), ("walmart", "WMT"), ("coca cola", "KO"),
   ("pepsi", "PEP"), ("mcdonalds", "MCD"), ("disney", "DIS"),
   ("adobe", "ADBE"), ("salesforce", "CRM")]

/-- `extractSymbol` of the query processor: first `\b[A-Z]{1,5}\b` token,
else first company name (map order) contained in the lowercased query,
else the literal default `'AAPL'`. -/
def extractSymbol (query : String) : String :=
  match firstUpperToken 1 5 query with
  | some s => s
  | none =>
    match extractSymbolCompanyMap.find? (fun p => inclLC query p.1) with
    | some p => p.2
    | none => "AAPL"

/-- The company-name map of the comparison branch of `fallbackProcessing`
(its keys are iterated in insertion order by `Object.keys`). -/
def comparisonCompanyMap : List (String × String) :=
  [("apple", "AAPL"), ("microsoft", "MSFT"), ("google", "GOOGL"),
   ("amazon", "AMZN"), ("tesla", "TSLA"), ("meta", "META"),
   ("nvidia", "NVDA"), ("netflix", "NFLX"), ("uber", "UBER"),
   ("spotify", "SPOT")]

/-- The count `fallbackProcessing` extracts up front:
`query.match(/(\d+)/)` on the lowercased query, default 5. -/
def fbCount (userQuery : String) : Nat := (firstNat (lcCodes userQuery)).getD 5

/-- Result of the comparison rule of `fallbackProcessing`: symbols collected
from the company map (key order) and the `\b[A-Z]{3,5}\b` matches,
deduplicated; the first one (default `'AAPL'`) becomes the representative
`get_quote` symbol. -/
def comparisonResult (userQuery : String) : ClassificationResult :=
  let symbols :=
    (comparisonCompanyMap.filter (fun p => inclLC userQuery p.1)).map (·.2) ++
    (upperMatches 3 5 userQuery.data false).map String.mk
  let uniqueSymbols := dedup symbols
  let firstSymbol := uniqueSymbols.head?.getD "AAPL"
  { tool := "get_quote", parameters := { symbol := some firstSymbol },
    reasoning := "Comparison query detected with symbols: " ++
      joinComma uniqueSymbols ++ ". Using first symbol for fallback.",
    confidence := mkRat 85 100, source := "enhanced_fallback" }

/-- Result of the dividend sub-branch of the top/best/most/list rule. -/
def dividendResult (count : Nat) : ClassificationResult :=
  { tool := "get_screener",
    parameters := { criteria := some "dividend_yield", count := some count,
                    sort := some "dividend_yield_desc" },
    reasoning := "Query appears to be asking for high dividend stocks",
    confidence := mkRat 9 10, source := "enhanced_fallback" }

/-- A `get_trending_stocks` result with the given reasoning/confidence
(the market-cap, performance, generic-top, trending and default branches
differ only there). -/
def trendingResult (count : Nat) (reasoning : String) (confidence : Rat) :
    ClassificationResult :=
  { tool := "get_trending_stocks", parameters := { count := some count },
    reasoning := reasoning, confidence := confidence,
    source := "enhanced_fallback" }

/-- A symbol-carrying result (`get_quote`/`get_historical_data`/
`get_insights`/`get_recommendations` branches). -/
def symbolResult (tool : String) (userQuery : String) (reasoning : String) :
    ClassificationResult :=
  { tool := tool, parameters := { symbol := some (extractSymbol userQuery) },
    reasoning := reasoning, confidence := mkRat 8 10,
    source := "enhanced_fallback" }

/-- A canned-query `search_symbols` result (the three ETF-specific
branches). -/
def cannedSearchResult (cannedQuery reasoning : String) :
    ClassificationResult :=
  { tool := "search_symbols", parameters := { query := some cannedQuery },
    reasoning := reasoning, confidence := mkRat 95 100,
    source := "enhanced_fallback" }

/-- The generic-ETF branch (`get_trending_etfs`). -/
def etfResult (count : Nat) : ClassificationResult :=
  { tool := "get_trending_etfs", parameters := { count := some count },
    reasoning := "Query appears to be asking for general/popular ETFs",
    confidence := mkRat 9 10, source := "enhanced_fallback" }

/-- The search/lookup branch (`search_symbols` with the raw query). -/
def rawSearchResult (userQuery : String) : ClassificationResult :=
  { tool := "search_symbols", parameters := { query := some userQuery },
    reasoning := "Query appears to be a search request for symbols or companies",
    confidence := mkRat 8 10, source := "enhanced_fallback" }

/-- The news branch (`get_news` with symbol and count). -/
def newsResult (userQuery : String) (count : Nat) : ClassificationResult :=
  { tool := "get_news",
    parameters := { symbol := some (extractSymbol userQuery),
                    count := some count },
    reasoning := "Query appears to be asking for news",
    confidence := mkRat 8 10, source := "enhanced_fallback" }

/-- The market-summary branch (`get_market_summary`, no parameters). -/
def marketSummaryResult : ClassificationResult :=
  { tool := "get_market_summary", parameters := { },
    reasoning := "Query appears to be asking for market summary or overview",
    confidence := mkRat 8 10, source := "enhanced_fallback" }

/-- One rule of the fallback cascade: a keyword condition on the query and
the result its branch returns. -/
structure FBRule where
  cond : String → Bool
  build : String → ClassificationResult

/-- The ordered branches of `fallbackProcessing`'s if/else cascade, one
entry per top-level `if` in source order (the nested dividend/market-cap/
performance sub-branches stay inside their rule's builder, conditions and
results verbatim from the source). -/
def fallbackRules : List FBRule :=
  [⟨fun q => inclLC q "compare" || inclLC q "vs" || inclLC q "versus" ||
       inclLC q "comparison" || inclLC q "side by side",
    fun q => comparisonResult q⟩,
   ⟨fun q => inclLC q "top" || inclLC q "best" || inclLC q "highest" ||
       inclLC q "most" || inclLC q "list" || inclLC q "show me",
    fun q =>
      if inclLC q "dividend" then dividendResult (fbCount q)
      else if inclLC q "market cap" || inclLC q "marketcap" ||
              inclLC q "largest" then
        trendingResult (fbCount q)
          "Query appears to be asking for top stocks by market cap" (mkRat 8 10)
      else if inclLC q "performing" || inclLC q "gaining" ||
              inclLC q "winning" then
        trendingResult (fbCount q)
          "Query appears to be asking for top performing stocks" (mkRat 8 10)
      else
        trendingResult (fbCount q)
          "Query appears to be asking for top/trending stocks" (mkRat 7 10)⟩,
   ⟨fun q => inclLC q "quote" || inclLC q "price" || inclLC q "stock" ||
       inclLC q "current" || inclLC q "latest",
    fun q => symbolResult "get_quote" q
      "Query appears to be asking for current stock quote/price"⟩,
   ⟨fun q => inclLC q "historical" || inclLC q "chart" ||
       inclLC q "history" || inclLC q "past" || inclLC q "performance",
    fun q => symbolResult "get_historical_data" q
      "Query appears to be asking for historical data or charts"⟩,
   ⟨fun q => inclLC q "trending" || inclLC q "top" || inclLC q "popular" ||
       inclLC q "most active" || inclLC q "hot",
    fun q => trendingResult (fbCount q)
      "Query appears to be asking for trending or popular stocks"
      (mkRat 8 10)⟩,
   ⟨fun q => inclLC q "reit etf" || inclLC q "real estate etf" ||
       inclLC q "real estate investment trust" || inclLC q "reit fund",
    fun _ => cannedSearchResult "REIT ETF real estate"
      "Query specifically mentions REIT ETFs - using search to find real estate ETFs"⟩,
   ⟨fun q => inclLC q "bond etf" || inclLC q "bond fund" ||
       inclLC q "fixed income etf" || inclLC q "treasury etf",
    fun _ => cannedSearchResult "bond ETF treasury fixed income"
      "Query specifically mentions bond ETFs - using search to find fixed income ETFs"⟩,
   ⟨fun q => inclLC q "tech etf" || inclLC q "technology etf" ||
       inclLC q "sector etf" || inclLC q "sector fund",
    fun _ => cannedSearchResult "technology ETF sector"
      "Query specifically mentions sector ETFs - using search to find sector-specific ETFs"⟩,
   ⟨fun q => inclLC q "etf" || inclLC q "exchange traded fund" ||
       inclLC q "diversified investing" || inclLC q "popular etf",
    fun q => etfResult (fbCount q)⟩,
   ⟨fun q => inclLC q "search" || inclLC q "find" || inclLC q "company" ||
       inclLC q "symbol" || inclLC q "ticker",
    fun q => rawSearchResult q⟩,
   ⟨fun q => inclLC q "news" || inclLC q "headlines",
    fun q => newsResult q (fbCount q)⟩,
   ⟨fun q => inclLC q "insights" || inclLC q "analysis" ||
       inclLC q "technical",
    fun q => symbolResult "get_insights" q
      "Query appears to be asking for technical analysis or insights"⟩,
   ⟨fun q => inclLC q "market" || inclLC q "summary" || inclLC q "overview",
    fun _ => marketSummaryResult⟩,
   ⟨fun q => inclLC q "recommendations" || inclLC q "analyst",
    fun q => symbolResult "get_recommendations" q
      "Query appears to be asking for analyst recommendations"⟩]

/-- First-match evaluation of the cascade; no rule matching ends in the
source's final `else` (default to trending stocks, confidence 0.6). -/
def firstMatch : List FBRule → String → ClassificationResult
  | [], q => trendingResult (fbCount q)
      "Default fallback to trending stocks" (mkRat 6 10)
  | r :: rs, q => if r.cond q then r.build q else firstMatch rs q

/-- `fallbackProcessing`: the rule-based fallback classifier — the ordered
if/else cascade over the lowercased query, first match winning, rendered as
first-match evaluation of `fallbackRules`. -/
def fallbackProcessing (userQuery : String) : ClassificationResult :=
  firstMatch fallbackRules userQuery

/-- The observable outcome of the LLM interaction inside `processQuery`,
up to and including the response-repair and JSON-parse pipeline: the Ollama
status check failed; the `/api/generate` request threw (timeout / network);
no brace-delimited JSON could be extracted and parsed; or a classification
object was parsed (its fields as JS gives them: a possibly absent
`parameters` object and a possibly absent numeric `confidence`). -/
inductive LLMStep where
  | unavailable : LLMStep
  | requestError (msg : String) : LLMStep
  | parseFailure : LLMStep
  | parsed (tool : String) (params : Option Args) (confidence : Option Rat)
      (reasoning : String) : LLMStep

/-- Clamp into `[0,1]` (JS `Math.min(Math.max(x, 0), 1)`). -/
def clamp01 (x : Rat) : Rat := min (max x 0) 1

/-- JS `result.confidence || 0.8`: an absent value, or the falsy number `0`,
defaults to `0.8`. -/
def jsOr08 (c : Option Rat) : Rat :=
  match c with
  | none => mkRat 8 10
  | some x => if x = 0 then mkRat 8 10 else x

/-- `processQuery` after the LLM interaction is abstracted into an `LLMStep`:
every error path, and a parsed tool name absent from `availableTools`,
returns `fallbackProcessing`; a registry-valid parsed tool is returned with
source `'llm'` and clamped, defaulted confidence. -/
def processQuery (step : LLMStep) (availableTools : List String)
    (userQuery : String) : ClassificationResult :=
  match step with
  | .parsed tool params confidence reasoning =>
    if availableTools.contains tool then
      { tool := tool, parameters := params.getD { },
        reasoning := reasoning,
        confidence := clamp01 (jsOr08 confidence), source := "llm" }
    else fallbackProcessing userQuery
  | _ => fallbackProcessing userQuery

end LLMQP

namespace Bridge

/-! Embedding of `src/mcp-http-bridge.js`. -/

/-- Timeout (ms) of one `sendToMCP` exchange with the MCP server process. -/
def mcpTimeoutMs : Nat := 30000

/-- JS `c.toLowerCase()` for one character (ASCII). -/
def lcChar (c : Char) : Char :=
  if 65 ≤ c.toNat ∧ c.toNat ≤ 90 then Char.ofNat (c.toNat + 32) else c

/-- JS `s.toLowerCase()` (ASCII). -/
def lowerStr (s : String) : String := String.mk (s.data.map lcChar)

/-- JS `s.split(sep)` for a one-character separator. -/
def splitChAux (sep : Char) (cur : List Char) : List Char → List String
  | [] => [String.mk cur.reverse]
  | c :: cs =>
    if c == sep then String.mk cur.reverse :: splitChAux sep [] cs
    else splitChAux sep (c :: cur) cs

/-- JS `s.split(sep)` for a one-character separator. -/
def splitCh (sep : Char) (s : String) : List String := splitChAux sep [] s.data

/-- Capability tags derived per tool by `extractToolCapabilities`. -/
structure Capabilities where
  keywords : List String
  requiresSymbol : Bool
  requiresCount : Bool
  requiresQuery : Bool
  category : String
deriving DecidableEq

/-- `name.includes(pat)` where `name` is the lowercased tool name and `pat` a
lowercase literal from the source. -/
def nameHas (name pat : String) : Bool := containsSeg (codes pat) (lcCodes name)

/-- `extractToolCapabilities`: keyword list from the lowercased name
(split on `'_'`) and description (split on `' '`), requirement booleans and
one category from ordered substring checks on the lowercased name, defaulting
to `'general'`. -/
def extractToolCapabilities (toolName description : String) : Capabilities :=
  { keywords :=
      ((splitCh '_' (lowerStr toolName)) ++
       (splitCh ' ' (lowerStr description))).filter (fun k => 2 < k.length)
    requiresSymbol :=
      nameHas toolName "quote" || nameHas toolName "historical" ||
      nameHas toolName "chart" || nameHas toolName "insights"
    requiresCount :=
      nameHas toolName "trending" || nameHas toolName "gainers" ||
      nameHas toolName "screener"
    requiresQuery := nameHas toolName "search" || nameHas toolName "symbols"
    category :=
      if nameHas toolName "trending" then "trending"
      else if nameHas toolName "quote" || nameHas toolName "price" then "quotes"
      else if nameHas toolName "historical" then "historical_chart"
      else if nameHas toolName "chart" then "chart_data"
      else if nameHas toolName "insights" then "insights"
      else if nameHas toolName "search" then "search"
      else if nameHas toolName "etf" then "etfs"
      else if nameHas toolName "gainer" then "gainers"
      else "general" }

/-! #### `extractCompanyNames` (the three patterns of the bridge resolver) -/

/-- The explicit company-name alternation of the first pattern, in its source
order (an ordered JS regex alternation tries alternatives left to right, so
`'ford motor'` is tried before `'ford'`). -/
def bridgeNames : List String :=
  ["apple", "microsoft", "google", "amazon", "tesla", "meta", "nvidia",
   "netflix", "amd", "intel", "palantir", "coinbase", "berkshire",
   "jpmorgan", "walmart", "coca cola", "pepsi", "disney", "nike",
   "home depot", "lowes", "target", "costco", "mcdonalds", "starbucks",
   "boeing", "general electric", "general motors", "ford motor", "ford"]

/-- Case-insensitive: `pat` is a prefix of the character list. -/
def ciPrefix (pat : String) (l : List Char) : Bool :=
  segStarts (lcCodes pat) (l.map (fun c => lcCode c.toNat))

/-- The name `nm` matches at the head of `l`, with a `\b` boundary after. -/
def nameMatchAt (nm : String) (l : List Char) : Bool :=
  ciPrefix nm l &&
  (match l.drop nm.length with | [] => true | r :: _ => !isWordCh r)

/-- All matches of the first pattern (`\b(apple|…|ford)\b`, `/gi`): scan left
to right, start only at a word boundary, take the first alternative matching
with a boundary after, resume after the match (`skip` counts characters still
to consume from a previous match). -/
def p1scan : Nat → List Char → Bool → List String
  | _ + 1, [], _ => []
  | skip + 1, c :: cs, _ => p1scan skip cs (isWordCh c)
  | 0, [], _ => []
  | 0, c :: cs, prevWord =>
    if !prevWord && isWordCh c then
      match bridgeNames.find? (fun nm => nameMatchAt nm (c :: cs)) with
      | some nm => String.mk ((c :: cs).take nm.length) ::
          p1scan (nm.length - 1) cs true
      | none => p1scan 0 cs (isWordCh c)
    else p1scan 0 cs (isWordCh c)

/-- Whitespace-separated words of the message (the `\s+` of patterns 2, 3). -/
def wordsAux (cur : List Char) : List Char → List String
  | [] => if cur.isEmpty then [] else [String.mk cur.reverse]
  | c :: cs =>
    if isWS c then
      if cur.isEmpty then wordsAux [] cs
      else String.mk cur.reverse :: wordsAux [] cs
    else wordsAux (c :: cur) cs

/-- Whitespace-separated words of the message. -/
def wordsOf (s : String) : List String := wordsAux [] s.data

/-- A word made of letters only (`[a-z]+` under the `/i` flag). -/
def isAlphaWord (w : String) : Bool :=
  !w.data.isEmpty && w.data.all (fun c =>
    (65 ≤ c.toNat && c.toNat ≤ 90) || (97 ≤ c.toNat && c.toNat ≤ 122))

/-- Case-insensitive string equality. -/
def ciEqStr (a b : String) : Bool := lcCodes a == lcCodes b

/-- JS `xs.join(' ')`. -/
def joinSpace : List String → String
  | [] => ""
  | [x] => x
  | x :: xs => x ++ " " ++ joinSpace xs

/-- Suffix words of pattern 2
(`(inc|corp|corporation|company|co|llc|ltd|limited)`). -/
def p2suffixes : List String :=
  ["inc", "corp", "corporation", "company", "co", "llc", "ltd", "limited"]

/-- Suffix words of pattern 3
(`(technologies|tech|systems|solutions|group|holdings|industries)`). -/
def p3suffixes : List String :=
  ["technologies", "tech", "systems", "solutions", "group", "holdings",
   "industries"]

/-- Index of the last suffix word inside an alphabetic word run (the greedy
`([a-z]+(?:\s+[a-z]+)*)` captures everything before the last suffix word the
run contains, which must not be the first word). -/
def lastSuffixIdx (suffixes : List String) (run : List String) : Option Nat :=
  ((List.range run.length).filter (fun j =>
    decide (1 ≤ j) &&
    (match run.get? j with
     | some w => suffixes.any (fun sfx => ciEqStr w sfx)
     | none => false))).getLast?

/-- Word-level rendering of patterns 2 and 3
(`\b([a-z]+(?:\s+[a-z]+)*)\s+(suffix…)\b`, `/gi`): inside each maximal run of
alphabetic words, the capture is everything before the last suffix word of
the run; scanning resumes after that suffix word (`skip` counts words still
to consume). -/
def scanSuffix (suffixes : List String) : Nat → List String → List String
  | _ + 1, [] => []
  | skip + 1, _ :: ws => scanSuffix suffixes skip ws
  | 0, [] => []
  | 0, w :: ws =>
    if isAlphaWord w then
      let run := w :: ws.takeWhile isAlphaWord
      match lastSuffixIdx suffixes run with
      | some j => joinSpace (run.take j) :: scanSuffix suffixes j ws
      | none => scanSuffix suffixes (run.length - 1) ws
    else scanSuffix suffixes 0 ws

/-- `extractCompanyNames`: candidates from the three patterns, kept when
longer than two characters, trimmed, deduplicated. -/
def extractCompanyNames (message : String) : List String :=
  let companies :=
    p1scan 0 message.data false ++
    scanSuffix p2suffixes 0 (wordsOf message) ++
    scanSuffix p3suffixes 0 (wordsOf message)
  dedup ((companies.filter (fun c => 2 < c.length)).map trimStr)

/-- The hardcoded company map of the bridge resolver. -/
def bridgeCompanyMap : List (String × String) :=
  [("microsoft", "MSFT"), ("apple", "AAPL"), ("google", "GOOGL"),
   ("amazon", "AMZN"), ("tesla", "TSLA"), ("meta", "META"),
   ("nvidia", "NVDA"), ("netflix", "NFLX"), ("amd", "AMD"),
   ("intel", "INTC"), ("ford", "F"), ("berkshire", "BRK.B"),
   ("jpmorgan", "JPM"), ("walmart", "WMT"), ("disney", "DIS"),
   ("nike", "NKE"), ("boeing", "BA"), ("general electric", "GE"),
   ("general motors", "GM")]

/-- `extractSymbol` of the bridge (the tiered resolver): an explicit
`\b[A-Z]{1,5}\b` token wins; else the first extracted company name is looked
up in the hardcoded map (key = its lowercasing); else one `search_symbols`
call is issued for that name — modelled by the `searchSym` oracle, which
stands for the MCP exchange, JSON parsing, the preference for an
`EQUITY`/`STOCK`-typed result, and the surrounding `try`/`catch` (a failed or
empty search leaves the symbol `null`).  With no company name extracted no
search happens and the resolver yields `none`. -/
def extractSymbol (searchSym : String → Option String) (message : String) :
    Option String :=
  match firstUpperToken 1 5 message with
  | some s => some s
  | none =>
    match extractCompanyNames message with
    | [] => none
    | companyName :: _ =>
      match bridgeCompanyMap.find? (fun p => ciEqStr p.1 companyName) with
      | some p => some p.2
      | none => searchSym companyName

/-! #### The `/analyze` endpoint -/

/-- A discovered tool as the registry caches it: name, description, and the
`required` list of its input schema. -/
structure ToolSpec where
  name : String
  description : String
  required : List String
deriving DecidableEq

/-- The static per-tool fallback table the `/analyze` handler builds
(`let fallbacks = …`). -/
def analyzeFallbacks (tool : String) : List String :=
  if tool == "get_screener" then ["get_trending_stocks", "search_symbols"]
  else if tool == "get_trending_stocks" then ["search_symbols"]
  else if tool == "get_quote" then ["search_symbols"]
  else if tool == "search_symbols" then ["get_trending_stocks"]
  else []

/-- Outcome of one `sendToMCP` tool invocation: the promise rejected
(timeout, server not running), or it resolved with
`response.result.content[0].text` (absent when the response carried no
text content). -/
inductive MCPOutcome where
  | err (msg : String) : MCPOutcome
  | ok (text : Option String) : MCPOutcome
deriving DecidableEq

/-- An execution environment: what each `tools/call` of a given tool with
given arguments would return. -/
def MCPEnv : Type := String → Args → MCPOutcome

/-- The embedded soft-error convention:
`response.result?.content?.[0]?.text?.includes('Error:')` (an absent text is
not an error). -/
def hasErrMarker (text : Option String) : Bool :=
  match text with
  | none => false
  | some s => inclCS s "Error:"

/-- A tool invocation counts as succeeded when the transport resolved and the
payload carries no `'Error:'` marker. -/
def succeedsB (env : MCPEnv) (tool : String) (args : Args) : Bool :=
  match env tool args with
  | .ok t => !hasErrMarker t
  | .err _ => false

/-- Mutable state of the `/analyze` try/fallback block: the current
`mcpRequest.params` name and arguments (mutated before every attempt), the
last resolved response (`response`, which keeps its value across later
failed attempts), the last caught error, and the trace of attempts made. -/
structure LoopState where
  reqName : String
  reqArgs : Args
  response : Option (Option String)
  lastErr : String
  attempts : List (String × Args)
deriving DecidableEq

/-- The arguments a fallback invocation of the search tool receives:
`{ query: message.trim() }`, replacing the primary tool's argument shape. -/
def searchArgs (message : String) : Args := { query := some (trimStr message) }

/-- Argument adaptation per fallback attempt: the search tool gets the raw
trimmed query, every other fallback keeps the current request arguments. -/
def fbArgs (message fb : String) (cur : Args) : Args :=
  if fb == "search_symbols" then searchArgs message else cur

/-- Last element of a fallback list, or the given default when it is
empty (the tool whose error `lastError` ends up holding). -/
def lastOrDefault : List String → String → String
  | [], d => d
  | fb :: rest, _ => lastOrDefault rest fb

/-- The text payload of a resolved MCP outcome (none for a rejection). -/
def okTextOf : MCPOutcome → Option String
  | .ok t => t
  | .err _ => none

/-- The fallback loop (`for (const fallbackTool of fallbacks) …`): mutate the
request name, replace the arguments with `{query: message.trim()}` when the
fallback is the search tool, invoke; a rejection updates `lastError`, a
resolved marker-error response is kept in `response` but the loop goes on,
and the first marker-free response stops the loop. -/
def runFallbacks (env : MCPEnv) (message : String) :
    List String → LoopState → LoopState
  | [], st => st
  | fb :: rest, st =>
    let args' := fbArgs message fb st.reqArgs
    let st' := { st with
      reqName := fb, reqArgs := args',
      attempts := st.attempts ++ [(fb, args')] }
    match env fb args' with
    | .err m => runFallbacks env message rest { st' with lastErr := m }
    | .ok t =>
      if hasErrMarker t then
        runFallbacks env message rest { st' with response := some t }
      else { st' with response := some t }

/-- Primary invocation plus fallback loop of `/analyze` (the part from
`// Try the primary tool first` to the end of the loop): a marker-free
primary response short-circuits; a marker-errored primary response is kept in
`response` (the `throw` happens after the assignment) and the fallbacks run;
a rejected primary leaves `response` unset and the fallbacks run. -/
def analyzeRun (env : MCPEnv) (message tool : String) (args : Args) :
    LoopState :=
  let st0 : LoopState :=
    { reqName := tool, reqArgs := args, response := none, lastErr := "",
      attempts := [(tool, args)] }
  match env tool args with
  | .ok t =>
    if hasErrMarker t then
      runFallbacks env message (analyzeFallbacks tool)
        { st0 with response := some t, lastErr := "Tool returned error" }
    else { st0 with response := some t }
  | .err m =>
    runFallbacks env message (analyzeFallbacks tool)
      { st0 with lastErr := m }

/-- The static tool→widget map used only when the registry has no
capabilities entry for the final request name. -/
def staticWidgetMap : List (String × String) :=
  [("get_insights", "insights"), ("get_chart", "chart_data"),
   ("get_quote_summary", "quote_summary"),
   ("get_fundamentals_timeseries", "fundamentals"),
   ("fundamentals_analysis", "fundamentals"),
   ("get_trending_symbols", "trending_symbols"),
   ("get_daily_gainers", "gainers"), ("get_screener", "screener"),
   ("get_autoc", "autoc"), ("get_trending_etfs", "etfs"),
   ("get_trending_stocks", "trending"), ("get_quote", "quotes"),
   ("get_historical_data", "historical_chart"),
   ("search_symbols", "search")]

/-- The widget type of a successful `/analyze` response: the capability
category derived for the final `mcpRequest.params.name` when the registry
knows that tool, else the static map, else `'general'`. -/
def widgetFor (registry : List ToolSpec) (toolName : String) : String :=
  match registry.find? (fun ts => ts.name == toolName) with
  | some ts => (extractToolCapabilities ts.name ts.description).category
  | none =>
    match staticWidgetMap.find? (fun p => p.1 == toolName) with
    | some p => p.2
    | none => "general"

/-- The `/analyze` endpoint's response, shape by shape: the normal 200
response ({content, data, widgetType, toolUsed}); the 200 error responses for
an unknown tool and for an unresolvable symbol (both with
`widgetType: 'error'`); and the catch-all 500 ({error, …,
`widgetType: 'error'`}). -/
inductive AnalyzeResult where
  | ok (widgetType : String) (toolUsed : String) (text : Option String) :
      AnalyzeResult
  | toolNotFound (tool : String) : AnalyzeResult
  | noSymbol : AnalyzeResult
  | thrown (msg : String) : AnalyzeResult
deriving DecidableEq

/-- The `widgetType` field each response shape carries. -/
def widgetTypeOf : AnalyzeResult → String
  | .ok w _ _ => w
  | .toolNotFound _ => "error"
  | .noSymbol => "error"
  | .thrown _ => "error"

/-- JS `!toolArgs[param]` for a string-valued parameter
(absent or empty is falsy). -/
def jsFalsyStr : Option String → Bool
  | none => true
  | some s => s == ""

/-- JS `!toolArgs[param]` for a number-valued parameter
(absent or zero is falsy). -/
def jsFalsyNat : Option Nat → Bool
  | none => true
  | some n => n == 0

/-- First alternative of `(?:for|symbol|ticker|find)` that matches (ci) at
the head of the list; its length. -/
def matchAltAt (alts : List String) (l : List Char) : Option Nat :=
  (alts.find? (fun a => ciPrefix a l)).map String.length

/-- Lazy `.*?(?:for|symbol|ticker|find)`: the least number of characters
consumed up to and including the first alternative occurrence. -/
def lazyScan (alts : List String) : List Char → Option Nat
  | [] => matchAltAt alts []
  | c :: cs =>
    match matchAltAt alts (c :: cs) with
    | some n => some n
    | none => (lazyScan alts cs).map (· + 1)

/-- Leftmost span matched by `/search.*?(?:for|symbol|ticker|find)/i`:
start offset and length. -/
def findSearchSpan : List Char → Option (Nat × Nat)
  | [] => none
  | c :: cs =>
    if ciPrefix "search" (c :: cs) then
      match lazyScan ["for", "symbol", "ticker", "find"] ((c :: cs).drop 6) with
      | some n => some (0, 6 + n)
      | none => (findSearchSpan cs).map (fun p => (p.1 + 1, p.2))
    else (findSearchSpan cs).map (fun p => (p.1 + 1, p.2))

/-- JS `message.replace(/search.*?(?:for|symbol|ticker|find)/i, '')`. -/
def replaceSearchTrigger (message : String) : String :=
  match findSearchSpan message.data with
  | none => message
  | some (start, len) =>
    String.mk (message.data.take start ++ message.data.drop (start + len))

/-- The required-parameter validation loop of `/analyze`
(`for (const param of requiredParams) …`): a falsy required `symbol` is
resolved through the bridge resolver, failure being terminal
(`.error ()` = the "No symbol found" response); a falsy required `count`
comes from the first integer of the message, default 5; a falsy required
`query` is the message with the search trigger phrase stripped (trimmed,
falling back to the trimmed message) for the search tool, the raw message
otherwise. -/
def resolveParamsAux (searchSym : String → Option String)
    (message tool : String) : List String → Args → Except Unit Args
  | [], args => .ok args
  | p :: ps, args =>
    if p == "symbol" then
      if jsFalsyStr args.symbol then
        match extractSymbol searchSym message with
        | none => .error ()
        | some s =>
          resolveParamsAux searchSym message tool ps { args with symbol := some s }
      else resolveParamsAux searchSym message tool ps args
    else if p == "count" then
      if jsFalsyNat args.count then
        resolveParamsAux searchSym message tool ps
          { args with count := some ((firstNat (codes message)).getD 5) }
      else resolveParamsAux searchSym message tool ps args
    else if p == "query" then
      if jsFalsyStr args.query then
        if tool == "search_symbols" then
          let searchQuery := trimStr (replaceSearchTrigger message)
          resolveParamsAux searchSym message tool ps
            { args with query := some (if searchQuery == ""
                                       then trimStr message else searchQuery) }
        else
          resolveParamsAux searchSym message tool ps
            { args with query := some message }
      else resolveParamsAux searchSym message tool ps args
    else resolveParamsAux searchSym message tool ps args

/-- Parameter validation for the whole required list. -/
def resolveParams (searchSym : String → Option String) (message tool : String)
    (required : List String) (args : Args) : Except Unit Args :=
  resolveParamsAux searchSym message tool required args

/-- The execution phase of `/analyze` for validated arguments: the final
`response` yields the 200 response — `widgetType` from the final request
name, `toolUsed` always the originally selected tool — and its absence
raises the last error into the 500 response. -/
def analyzeExec (env : MCPEnv) (registry : List ToolSpec)
    (message tool : String) (args : Args) : AnalyzeResult :=
  let st := analyzeRun env message tool args
  match st.response with
  | none => .thrown st.lastErr
  | some t => .ok (widgetFor registry st.reqName) tool t

/-- The `/analyze` handler, from the classification result on: unknown tool →
the "Tool not found" error response; an unresolvable required symbol → the
"No symbol found" error response; otherwise the primary/fallback execution
phase. -/
def analyze (env : MCPEnv) (searchSym : String → Option String)
    (registry : List ToolSpec) (message : String)
    (cls : ClassificationResult) : AnalyzeResult :=
  match registry.find? (fun ts => ts.name == cls.tool) with
  | none => .toolNotFound cls.tool
  | some ts =>
    match resolveParams searchSym message cls.tool ts.required cls.parameters with
    | .error _ => .noSymbol
    | .ok args => analyzeExec env registry message cls.tool args

/-- The attempts (tool name, arguments) `/analyze` makes for a
classification, empty when execution is never reached. -/
def analyzeAttempts (env : MCPEnv) (searchSym : String → Option String)
    (registry : List ToolSpec) (message : String)
    (cls : ClassificationResult) : List (String × Args) :=
  match registry.find? (fun ts => ts.name == cls.tool) with
  | none => []
  | some ts =>
    match resolveParams searchSym message cls.tool ts.required cls.parameters with
    | .error _ => []
    | .ok args => (analyzeRun env message cls.tool args).attempts

end Bridge

/-! ### Helper lemmas -/

/-- First-match evaluation preserves a property that every rule's builder
and the default branch satisfy. -/
theorem firstMatch_prop (P : ClassificationResult → Prop) (q : String) :
    ∀ rules : List LLMQP.FBRule,
      (∀ r ∈ rules, P (r.build q)) →
      P (LLMQP.trendingResult (LLMQP.fbCount q)
          "Default fallback to trending stocks" (mkRat 6 10)) →
      P (LLMQP.firstMatch rules q) := by
  intro rules
  induction rules with
  | nil => intro _ hdef; exact hdef
  | cons r rs ih =>
    intro hall hdef
    unfold LLMQP.firstMatch
    by_cases hc : r.cond q = true
    · rw [if_pos hc]
      exact hall r (List.mem_cons_self r rs)
    · rw [if_neg hc]
      exact ih (fun x hx => hall x (List.mem_cons_of_mem r hx)) hdef

/-- Every branch of the rule-based fallback classifier tags its result with
the `'enhanced_fallback'` source. -/
theorem fallbackProcessing_source (q : String) :
    (LLMQP.fallbackProcessing q).source = "enhanced_fallback" := by
  refine firstMatch_prop (fun res => res.source = "enhanced_fallback") q
    LLMQP.fallbackRules ?_ rfl
  intro r hr
  simp only [LLMQP.fallbackRules, List.mem_cons, List.not_mem_nil,
    or_false] at hr
  rcases hr with rfl|rfl|rfl|rfl|rfl|rfl|rfl|rfl|rfl|rfl|rfl|rfl|rfl|rfl <;>
    first
      | rfl
      | (show ClassificationResult.source (if _ then _ else _) = _
         split_ifs <;> rfl)

/-- `mkRat 6 10` lies in `[0,1]`. -/
theorem ratBounds6 : 0 ≤ mkRat 6 10 ∧ mkRat 6 10 ≤ 1 := by decide

/-- `mkRat 7 10` lies in `[0,1]`. -/
theorem ratBounds7 : 0 ≤ mkRat 7 10 ∧ mkRat 7 10 ≤ 1 := by decide

/-- `mkRat 8 10` lies in `[0,1]`. -/
theorem ratBounds8 : 0 ≤ mkRat 8 10 ∧ mkRat 8 10 ≤ 1 := by decide

/-- `mkRat 85 100` lies in `[0,1]`. -/
theorem ratBounds85 : 0 ≤ mkRat 85 100 ∧ mkRat 85 100 ≤ 1 := by decide

/-- `mkRat 9 10` lies in `[0,1]`. -/
theorem ratBounds9 : 0 ≤ mkRat 9 10 ∧ mkRat 9 10 ≤ 1 := by decide

/-- `mkRat 95 100` lies in `[0,1]`. -/
theorem ratBounds95 : 0 ≤ mkRat 95 100 ∧ mkRat 95 100 ≤ 1 := by decide

/-- Every branch of the rule-based fallback classifier carries a confidence
in `[0,1]` (the literals 0.85, 0.9, 0.8, 0.7, 0.95, 0.6). -/
theorem fallbackProcessing_confidence_bounds (q : String) :
    0 ≤ (LLMQP.fallbackProcessing q).confidence ∧
    (LLMQP.fallbackProcessing q).confidence ≤ 1 := by
  refine firstMatch_prop
    (fun res => 0 ≤ res.confidence ∧ res.confidence ≤ 1) q
    LLMQP.fallbackRules ?_ ratBounds6
  intro r hr
  simp only [LLMQP.fallbackRules, List.mem_cons, List.not_mem_nil,
    or_false] at hr
  rcases hr with rfl|rfl|rfl|rfl|rfl|rfl|rfl|rfl|rfl|rfl|rfl|rfl|rfl|rfl <;>
    first
      | exact ratBounds8
      | exact ratBounds85
      | exact ratBounds9
      | exact ratBounds95
      | (dsimp only; split_ifs <;>
          first
            | exact ratBounds7
            | exact ratBounds8
            | exact ratBounds9)

/-- Clamping lands in `[0,1]`. -/
theorem clamp01_bounds (x : Rat) :
    0 ≤ LLMQP.clamp01 x ∧ LLMQP.clamp01 x ≤ 1 := by
  unfold LLMQP.clamp01
  constructor
  · exact le_min (le_max_right x 0) (by norm_num)
  · exact min_le_right _ 1

/-! ### Claims -/

/-- C1, counterexample.  The claim says no classification path ever
substitutes a guessed default symbol for an unresolved one.  But on the query
`"what is the price"` — which no tier can resolve: it holds no
`\b[A-Z]{1,5}\b` token, no company name any pattern extracts (so the bridge
resolver returns `none` without even a search), and the literal `"AAPL"`
does not occur in it — the fallback classifier's quote rule fires and its
`extractSymbol` returns the hardcoded default `'AAPL'`, which is then carried
as the classification's `symbol` parameter. -/
theorem C1_counterexample :
    LLMQP.extractSymbol "what is the price" = "AAPL" ∧
    (LLMQP.fallbackProcessing "what is the price").tool = "get_quote" ∧
    (LLMQP.fallbackProcessing "what is the price").parameters.symbol
      = some "AAPL" ∧
    Bridge.extractSymbol (fun _ => none) "what is the price" = none ∧
    inclCS "what is the price" "AAPL" = false := by
  refine ⟨by decide, by decide, by decide, by decide, by decide⟩

/-- C2.  The LLM-backed classifier absorbs every error path: Ollama
unavailable, a thrown request (timeout/network), an unparseable response, and
a parsed tool name absent from the registry all return the rule-based
fallback result; and whenever the returned classification carries the
`'llm'` source, its tool name is in the registry — an invalid name is never
propagated. -/
theorem C2_classifier_absorbs_errors :
    ∀ (tools : List String) (q msg tool reasoning : String)
      (params : Option Args) (conf : Option Rat),
      LLMQP.processQuery .unavailable tools q = LLMQP.fallbackProcessing q ∧
      LLMQP.processQuery (.requestError msg) tools q
        = LLMQP.fallbackProcessing q ∧
      LLMQP.processQuery .parseFailure tools q = LLMQP.fallbackProcessing q ∧
      (tools.contains tool = false →
        LLMQP.processQuery (.parsed tool params conf reasoning) tools q
          = LLMQP.fallbackProcessing q) ∧
      (∀ step : LLMQP.LLMStep,
        (LLMQP.processQuery step tools q).source = "llm" →
        tools.contains (LLMQP.processQuery step tools q).tool = true) := by
  intro tools q msg tool reasoning params conf
  refine ⟨rfl, rfl, rfl, ?_, ?_⟩
  · intro h
    simp only [LLMQP.processQuery]
    rw [h]
    simp
  · intro step hsrc
    cases step with
    | unavailable =>
      have hs : (LLMQP.fallbackProcessing q).source = "llm" := hsrc
      rw [fallbackProcessing_source] at hs
      exact absurd hs (by decide)
    | requestError m =>
      have hs : (LLMQP.fallbackProcessing q).source = "llm" := hsrc
      rw [fallbackProcessing_source] at hs
      exact absurd hs (by decide)
    | parseFailure =>
      have hs : (LLMQP.fallbackProcessing q).source = "llm" := hsrc
      rw [fallbackProcessing_source] at hs
      exact absurd hs (by decide)
    | parsed t p c r =>
      by_cases hmem : tools.contains t = true
      · simp only [LLMQP.processQuery]
        rw [hmem]
        exact hmem
      · have h' : tools.contains t = false := by
          rwa [Bool.not_eq_true] at hmem
        simp only [LLMQP.processQuery] at hsrc
        rw [h'] at hsrc
        have hs : (LLMQP.fallbackProcessing q).source = "llm" := hsrc
        rw [fallbackProcessing_source] at hs
        exact absurd hs (by decide)

/-- C2, witness: a parsed tool name absent from the registry falls back. -/
theorem C2_witness :
    (["get_quote"] : List String).contains "bogus_tool" = false ∧
    LLMQP.processQuery (.parsed "bogus_tool" none none "r") ["get_quote"] "hello"
      = LLMQP.fallbackProcessing "hello" :=
  ⟨by decide,
   (C2_classifier_absorbs_errors ["get_quote"] "hello" "" "bogus_tool" "r"
      none none).2.2.2.1 (by decide)⟩

/-- C5, counterexample.  The claim says a supplied confidence is clamped
into `[0,1]`, i.e. a supplied `0` stays `0`.  But `result.confidence || 0.8`
treats the falsy number `0` as absent: an LLM response carrying
`confidence: 0` comes back as `0.8`, not as the clamped `0`. -/
theorem C5_counterexample :
    (LLMQP.processQuery (.parsed "get_quote" none (some 0) "r")
      ["get_quote"] "q").confidence = mkRat 8 10 ∧
    LLMQP.clamp01 0 = 0 ∧
    mkRat 8 10 ≠ (0 : Rat) := by
  refine ⟨by decide, by decide, by decide⟩

/-- C5, amended.  A registry-valid LLM classification's confidence is 0.8
when the response omits confidence **or supplies the falsy value 0**, and is
otherwise the supplied value clamped into `[0,1]`; and every classification
either classifier produces has confidence in `[0,1]`. -/
theorem C5_amended :
    ∀ (step : LLMQP.LLMStep) (tools : List String)
      (q tool reasoning : String) (params : Option Args) (x : Rat),
      (0 ≤ (LLMQP.processQuery step tools q).confidence ∧
       (LLMQP.processQuery step tools q).confidence ≤ 1) ∧
      (tools.contains tool = true →
        (LLMQP.processQuery (.parsed tool params none reasoning) tools
          q).confidence = mkRat 8 10 ∧
        (LLMQP.processQuery (.parsed tool params (some 0) reasoning) tools
          q).confidence = mkRat 8 10 ∧
        (x ≠ 0 →
          (LLMQP.processQuery (.parsed tool params (some x) reasoning) tools
            q).confidence = LLMQP.clamp01 x)) := by
  intro step tools q tool reasoning params x
  constructor
  · cases step with
    | unavailable => exact fallbackProcessing_confidence_bounds q
    | requestError m => exact fallbackProcessing_confidence_bounds q
    | parseFailure => exact fallbackProcessing_confidence_bounds q
    | parsed t p c r =>
      simp only [LLMQP.processQuery]
      by_cases h : tools.contains t = true
      · rw [h]
        exact clamp01_bounds (LLMQP.jsOr08 c)
      · rw [Bool.not_eq_true] at h
        rw [h]
        exact fallbackProcessing_confidence_bounds q
  · intro hmem
    refine ⟨?_, ?_, ?_⟩
    · simp only [LLMQP.processQuery]
      rw [hmem]
      exact (show LLMQP.clamp01 (LLMQP.jsOr08 none) = mkRat 8 10 by decide)
    · simp only [LLMQP.processQuery]
      rw [hmem]
      exact (show LLMQP.clamp01 (LLMQP.jsOr08 (some 0)) = mkRat 8 10 by decide)
    · intro hx
      simp only [LLMQP.processQuery]
      rw [hmem]
      show LLMQP.clamp01 (LLMQP.jsOr08 (some x)) = LLMQP.clamp01 x
      simp only [LLMQP.jsOr08]
      rw [if_neg hx]

/-- C5, witness: a supplied out-of-range confidence 1.5 is clamped. -/
theorem C5_amended_witness :
    (LLMQP.processQuery (.parsed "get_quote" none (some (mkRat 3 2)) "r")
      ["get_quote"] "q").confidence = LLMQP.clamp01 (mkRat 3 2) :=
  ((C5_amended .parseFailure ["get_quote"] "q" "get_quote" "r" none
      (mkRat 3 2)).2 (by decide)).2.2 (by decide)

/-- C6.  Capability-category derivation is the fixed name-substring
precedence trending > quote/price > historical > chart > insights > search >
etf > gainer, defaulting to general; it never depends on the description, and
in particular a name containing `'trending'` always yields category
`'trending'`. -/
theorem C6_category_precedence :
    ∀ name desc : String,
      ((Bridge.extractToolCapabilities name desc).category
        = (Bridge.extractToolCapabilities name "").category) ∧
      (Bridge.nameHas name "trending" = true →
        (Bridge.extractToolCapabilities name desc).category = "trending") ∧
      (Bridge.nameHas name "trending" = false →
        ((Bridge.nameHas name "quote" || Bridge.nameHas name "price") = true →
          (Bridge.extractToolCapabilities name desc).category = "quotes") ∧
        ((Bridge.nameHas name "quote" || Bridge.nameHas name "price") = false →
          (Bridge.nameHas name "historical" = true →
            (Bridge.extractToolCapabilities name desc).category
              = "historical_chart") ∧
          (Bridge.nameHas name "historical" = false →
            (Bridge.nameHas name "chart" = true →
              (Bridge.extractToolCapabilities name desc).category
                = "chart_data") ∧
            (Bridge.nameHas name "chart" = false →
              (Bridge.nameHas name "insights" = true →
                (Bridge.extractToolCapabilities name desc).category
                  = "insights") ∧
              (Bridge.nameHas name "insights" = false →
                (Bridge.nameHas name "search" = true →
                  (Bridge.extractToolCapabilities name desc).category
                    = "search") ∧
                (Bridge.nameHas name "search" = false →
                  (Bridge.nameHas name "etf" = true →
                    (Bridge.extractToolCapabilities name desc).category
                      = "etfs") ∧
                  (Bridge.nameHas name "etf" = false →
                    (Bridge.nameHas name "gainer" = true →
                      (Bridge.extractToolCapabilities name desc).category
                        = "gainers") ∧
                    (Bridge.nameHas name "gainer" = false →
                      (Bridge.extractToolCapabilities name desc).category
                        = "general")))))))) := by
  intro name desc
  refine ⟨rfl, fun h1 => ?_, fun h1 => ⟨fun h2 => ?_, fun h2 =>
    ⟨fun h3 => ?_, fun h3 => ⟨fun h4 => ?_, fun h4 => ⟨fun h5 => ?_,
    fun h5 => ⟨fun h6 => ?_, fun h6 => ⟨fun h7 => ?_, fun h7 =>
    ⟨fun h8 => ?_, fun h8 => ?_⟩⟩⟩⟩⟩⟩⟩⟩
  all_goals simp only [Bridge.extractToolCapabilities]
  all_goals rw [h1]
  all_goals try rw [h2]
  all_goals try rw [h3]
  all_goals try rw [h4]
  all_goals try rw [h5]
  all_goals try rw [h6]
  all_goals try rw [h7]
  all_goals try rw [h8]
  all_goals rfl

/-- C6, witness: a tool named with `'trending'` inside gets category
`'trending'` although its description says `'quote price chart'`. -/
theorem C6_witness :
    Bridge.nameHas "Get_Trending_Stocks" "trending" = true ∧
    (Bridge.extractToolCapabilities "Get_Trending_Stocks"
      "quote price chart").category = "trending" :=
  ⟨by decide,
   (C6_category_precedence "Get_Trending_Stocks" "quote price chart").2.1
     (by decide)⟩

/-- C7.  The query `"top 5 dividend stocks"` with the classifier unavailable
takes the dividend sub-branch of the superlative rule: screening tool,
criteria `dividend_yield` (with the dividend-yield sort), count 5,
confidence 0.9, the fallback source variant. -/
theorem C7_dividend_scenario :
    LLMQP.fallbackProcessing "top 5 dividend stocks" =
      { tool := "get_screener",
        parameters := { criteria := some "dividend_yield", count := some 5,
                        sort := some "dividend_yield_desc" },
        reasoning := "Query appears to be asking for high dividend stocks",
        confidence := mkRat 9 10, source := "enhanced_fallback" } := by
  decide

/-- C8.  The query `"compare Apple and Microsoft"` with the classifier
unavailable fires the comparison rule (the cascade's first rule): a
`get_quote` classification with the first extracted symbol `AAPL`,
confidence 0.85, and a reasoning string naming both extracted symbols
(`AAPL` and `MSFT`). -/
theorem C8_compare_scenario :
    LLMQP.fallbackProcessing "compare Apple and Microsoft" =
      { tool := "get_quote", parameters := { symbol := some "AAPL" },
        reasoning := "Comparison query detected with symbols: AAPL, MSFT. Using first symbol for fallback.",
        confidence := mkRat 85 100, source := "enhanced_fallback" } ∧
    inclCS (LLMQP.fallbackProcessing "compare Apple and Microsoft").reasoning
      "AAPL" = true ∧
    inclCS (LLMQP.fallbackProcessing "compare Apple and Microsoft").reasoning
      "MSFT" = true := by
  refine ⟨by decide, by decide, by decide⟩

/-- C9, counterexample.  The claim bounds the LLM model-endpoint call by a
"low single-digit-second" hard timeout; the source's `/api/generate` call in
`processQuery` uses `timeout: 10000` — ten seconds, not single-digit. -/
theorem C9_counterexample :
    ¬ (LLMQP.generateTimeoutMs ≤ 9000) ∧ LLMQP.generateTimeoutMs = 10000 := by
  refine ⟨by decide, rfl⟩

/-- C9, amended.  Every external call carries an explicit finite timeout —
the Ollama status check 3 s, the `/api/generate` classification call 10 s
(ten seconds, not single-digit), the suggestions call 8 s, each MCP tool
invocation 30 s (tens of seconds, larger than the LLM timeout) — and on an
LLM request error the classifier returns the rule-based fallback immediately,
consuming exactly the one failed LLM step with no retry at that layer. -/
theorem C9_amended :
    LLMQP.generateTimeoutMs = 10000 ∧
    0 < LLMQP.generateTimeoutMs ∧
    LLMQP.ollamaStatusTimeoutMs = 3000 ∧
    LLMQP.suggestionsTimeoutMs = 8000 ∧
    Bridge.mcpTimeoutMs = 30000 ∧
    LLMQP.generateTimeoutMs < Bridge.mcpTimeoutMs ∧
    (∀ (m : String) (tools : List String) (q : String),
      LLMQP.processQuery (.requestError m) tools q
        = LLMQP.fallbackProcessing q) := by
  exact ⟨rfl, by decide, rfl, rfl, rfl, by decide, fun _ _ _ => rfl⟩

/-- The required-parameter loop fails terminally when `symbol` is required
but falsy in the arguments and the bridge resolver yields nothing; the
count/query resolution steps never touch the symbol field. -/
theorem resolveParamsAux_symbol_fail (searchSym : String → Option String)
    (message tool : String) :
    ∀ (req : List String) (args : Args),
      "symbol" ∈ req →
      Bridge.jsFalsyStr args.symbol = true →
      Bridge.extractSymbol searchSym message = none →
      Bridge.resolveParamsAux searchSym message tool req args = .error () := by
  intro req
  induction req with
  | nil =>
    intro args hmem _ _
    exact absurd hmem (List.not_mem_nil _)
  | cons p ps ih =>
    intro args hmem hfal hnone
    by_cases hp : p = "symbol"
    · subst hp
      simp only [Bridge.resolveParamsAux, beq_self_eq_true, if_true, hfal,
        hnone]
    · have hbe : (p == "symbol") = false := by
        simp [hp]
      have hps : "symbol" ∈ ps := by
        rcases List.mem_cons.mp hmem with h | h
        · exact absurd h.symm hp
        · exact h
      simp only [Bridge.resolveParamsAux, hbe]
      split_ifs <;> first
        | contradiction
        | exact ih _ hps hfal hnone

/-- When every MCP call rejects, the fallback loop leaves `response` as it
found it and ends with the last attempted tool's error. -/
theorem runFallbacks_all_err (env : Bridge.MCPEnv) (errf : String → String)
    (message : String) (henv : ∀ t a, env t a = .err (errf t)) :
    ∀ (fbs : List String) (st : Bridge.LoopState),
      (Bridge.runFallbacks env message fbs st).response = st.response ∧
      (Bridge.runFallbacks env message fbs st).lastErr
        = (match fbs with
           | [] => st.lastErr
           | fb :: rest => errf (Bridge.lastOrDefault rest fb)) := by
  intro fbs
  induction fbs with
  | nil => intro st; exact ⟨rfl, rfl⟩
  | cons fb rest ih =>
    intro st
    simp only [Bridge.runFallbacks, henv]
    rcases ih { st with
      reqName := fb, reqArgs := Bridge.fbArgs message fb st.reqArgs,
      attempts := st.attempts ++ [(fb, Bridge.fbArgs message fb st.reqArgs)],
      lastErr := errf fb } with ⟨h1, h2⟩
    refine ⟨h1, ?_⟩
    rw [h2]
    cases rest <;> rfl

/-- C1, amended.  The bridge-level resolver (`extractSymbol` of
`mcp-http-bridge.js`) is the one obeying the claim: when it resolves nothing
for a required, falsy `symbol` parameter, `/analyze` surfaces the terminal
"No symbol found" response (widget type `'error'`) and invokes no tool.  The
classifier-level `extractSymbol` of `llm-query-processor.js`, however,
substitutes the literal default `'AAPL'` for an unresolved symbol (see the
counterexample), so "no classification path ever guesses" does not hold. -/
theorem C1_amended :
    ∀ (env : Bridge.MCPEnv) (searchSym : String → Option String)
      (registry : List Bridge.ToolSpec) (message : String)
      (cls : ClassificationResult) (ts : Bridge.ToolSpec),
      registry.find? (fun t => t.name == cls.tool) = some ts →
      "symbol" ∈ ts.required →
      Bridge.jsFalsyStr cls.parameters.symbol = true →
      Bridge.extractSymbol searchSym message = none →
      Bridge.analyze env searchSym registry message cls = .noSymbol ∧
      Bridge.widgetTypeOf
        (Bridge.analyze env searchSym registry message cls) = "error" ∧
      Bridge.analyzeAttempts env searchSym registry message cls = [] := by
  intro env searchSym registry message cls ts hfind hreq hfal hnone
  have hres : Bridge.resolveParams searchSym message cls.tool ts.required
      cls.parameters = .error () :=
    resolveParamsAux_symbol_fail searchSym message cls.tool ts.required
      cls.parameters hreq hfal hnone
  have hmain : Bridge.analyze env searchSym registry message cls
      = .noSymbol := by
    simp only [Bridge.analyze, hfind, hres]
  refine ⟨hmain, ?_, ?_⟩
  · rw [hmain]
    rfl
  · simp only [Bridge.analyzeAttempts, hfind, hres]

/-- C1, amended, witness: a query resolvable by no tier yields the
"No symbol found" response for a symbol-requiring tool. -/
theorem C1_amended_witness :
    Bridge.analyze (fun _ _ => .err "down") (fun _ => none)
      [⟨"get_quote", "Get stock quote", ["symbol"]⟩] "what is it"
      ⟨"get_quote", { }, "", mkRat 8 10, "llm"⟩ = .noSymbol :=
  (C1_amended (fun _ _ => .err "down") (fun _ => none)
    [⟨"get_quote", "Get stock quote", ["symbol"]⟩] "what is it"
    ⟨"get_quote", { }, "", mkRat 8 10, "llm"⟩
    ⟨"get_quote", "Get stock quote", ["symbol"]⟩
    (by decide) (by decide) (by decide) (by decide)).1

/-- C3, counterexample.  The claim says attempted alternates are restricted
to those present in the live registry.  But the `/analyze` fallback table is
used unfiltered: with a registry that holds only `get_quote`, a failing
`get_quote` invocation is still followed by an attempt on `search_symbols`,
a tool the registry does not contain. -/
theorem C3_counterexample :
    (Bridge.analyzeAttempts (fun _ _ => .err "boom") (fun _ => none)
      [⟨"get_quote", "Get stock quote", ["symbol"]⟩] "price of X"
      ⟨"get_quote", { symbol := some "X" }, "", mkRat 8 10, "llm"⟩).map
        Prod.fst = ["get_quote", "search_symbols"] ∧
    ([⟨"get_quote", "Get stock quote", ["symbol"]⟩] :
        List Bridge.ToolSpec).find?
      (fun ts => ts.name == "search_symbols") = none := by
  refine ⟨by decide, by decide⟩

/-- A transport rejection means the invocation did not succeed. -/
theorem succeedsB_err {env : Bridge.MCPEnv} {tool : String} {args : Args}
    {m : String} (henv : env tool args = .err m) :
    Bridge.succeedsB env tool args = false := by
  unfold Bridge.succeedsB
  rw [henv]

/-- A resolved invocation succeeds exactly when its payload carries no
error marker. -/
theorem succeedsB_ok {env : Bridge.MCPEnv} {tool : String} {args : Args}
    {t : Option String} (henv : env tool args = .ok t) :
    Bridge.succeedsB env tool args = !Bridge.hasErrMarker t := by
  unfold Bridge.succeedsB
  rw [henv]

/-- A successful primary invocation short-circuits: the final loop state is
the initial one with its marker-free response recorded. -/
theorem analyzeRun_success_state (env : Bridge.MCPEnv)
    (message tool : String) (args : Args)
    (h : Bridge.succeedsB env tool args = true) :
    ∃ t, env tool args = .ok t ∧ Bridge.hasErrMarker t = false ∧
      Bridge.analyzeRun env message tool args
        = ⟨tool, args, some t, "", [(tool, args)]⟩ := by
  cases henv : env tool args with
  | err m => rw [succeedsB_err henv] at h; exact absurd h (by decide)
  | ok t =>
    rw [succeedsB_ok henv] at h
    have hm : Bridge.hasErrMarker t = false := by simpa using h
    refine ⟨t, rfl, hm, ?_⟩
    simp only [Bridge.analyzeRun, henv]
    rw [hm]
    rfl

/-- A failed primary invocation enters the fallback loop over the static
table, with the attempts trace already holding the primary attempt (the
response and last error it starts from depend on the failure mode). -/
theorem analyzeRun_fail_state (env : Bridge.MCPEnv)
    (message tool : String) (args : Args)
    (h : Bridge.succeedsB env tool args = false) :
    ∃ r l, Bridge.analyzeRun env message tool args
      = Bridge.runFallbacks env message (Bridge.analyzeFallbacks tool)
          ⟨tool, args, r, l, [(tool, args)]⟩ := by
  cases henv : env tool args with
  | err m =>
    refine ⟨none, m, ?_⟩
    simp only [Bridge.analyzeRun, henv]
  | ok t =>
    rw [succeedsB_ok henv] at h
    have hm : Bridge.hasErrMarker t = true := by simpa using h
    refine ⟨some t, "Tool returned error", ?_⟩
    simp only [Bridge.analyzeRun, henv]
    rw [hm]
    rfl

/-- A successful fallback invocation stops the loop: the final state is the
current one with the request mutated to that fallback and its marker-free
response recorded. -/
theorem runFallbacks_cons_success (env : Bridge.MCPEnv) (message fb : String)
    (rest : List String) (st : Bridge.LoopState)
    (h : Bridge.succeedsB env fb (Bridge.fbArgs message fb st.reqArgs)
          = true) :
    ∃ t, env fb (Bridge.fbArgs message fb st.reqArgs) = .ok t ∧
      Bridge.hasErrMarker t = false ∧
      Bridge.runFallbacks env message (fb :: rest) st
        = ⟨fb, Bridge.fbArgs message fb st.reqArgs, some t, st.lastErr,
           st.attempts ++ [(fb, Bridge.fbArgs message fb st.reqArgs)]⟩ := by
  cases henv : env fb (Bridge.fbArgs message fb st.reqArgs) with
  | err m => rw [succeedsB_err henv] at h; exact absurd h (by decide)
  | ok t =>
    rw [succeedsB_ok henv] at h
    have hm : Bridge.hasErrMarker t = false := by simpa using h
    refine ⟨t, rfl, hm, ?_⟩
    simp only [Bridge.runFallbacks, henv]
    rw [hm]
    rfl

/-- A failed fallback invocation (rejection or marker error) lets the loop
continue on the remaining alternates, the attempt recorded. -/
theorem runFallbacks_cons_fail (env : Bridge.MCPEnv) (message fb : String)
    (rest : List String) (st : Bridge.LoopState)
    (h : Bridge.succeedsB env fb (Bridge.fbArgs message fb st.reqArgs)
          = false) :
    ∃ r l, Bridge.runFallbacks env message (fb :: rest) st
      = Bridge.runFallbacks env message rest
          ⟨fb, Bridge.fbArgs message fb st.reqArgs, r, l,
           st.attempts ++ [(fb, Bridge.fbArgs message fb st.reqArgs)]⟩ := by
  cases henv : env fb (Bridge.fbArgs message fb st.reqArgs) with
  | err m =>
    refine ⟨st.response, m, ?_⟩
    simp only [Bridge.runFallbacks, henv]
  | ok t =>
    rw [succeedsB_ok henv] at h
    have hm : Bridge.hasErrMarker t = true := by simpa using h
    refine ⟨some t, st.lastErr, ?_⟩
    simp only [Bridge.runFallbacks, henv]
    rw [hm]
    rfl

/-- A one-alternate loop records exactly that attempt, whatever its
outcome. -/
theorem runFallbacks_single_attempts (env : Bridge.MCPEnv)
    (message fb : String) (st : Bridge.LoopState) :
    (Bridge.runFallbacks env message [fb] st).attempts
      = st.attempts ++ [(fb, Bridge.fbArgs message fb st.reqArgs)] := by
  by_cases h : Bridge.succeedsB env fb (Bridge.fbArgs message fb st.reqArgs)
      = true
  · obtain ⟨t, _, _, heq⟩ :=
      runFallbacks_cons_success env message fb [] st h
    rw [heq]
  · rw [Bool.not_eq_true] at h
    obtain ⟨r, l, heq⟩ := runFallbacks_cons_fail env message fb [] st h
    rw [heq]
    rfl

/-- C3, amended.  On primary failure the orchestrator walks the static
per-category table in declared order — screening → trending → search,
trending → search, quote → search, search → trending — adapting a fallback
search invocation to `{query: message.trim()}`, stopping at the first
success; but the chain is **not** filtered against the live registry (see
the counterexample).  A successful primary makes no fallback attempt. -/
theorem C3_amended :
    ∀ (env : Bridge.MCPEnv) (message : String) (args : Args),
      (∀ tool : String, Bridge.succeedsB env tool args = true →
        (Bridge.analyzeRun env message tool args).attempts
          = [(tool, args)]) ∧
      (Bridge.succeedsB env "get_quote" args = false →
        (Bridge.analyzeRun env message "get_quote" args).attempts
          = [("get_quote", args),
             ("search_symbols", Bridge.searchArgs message)]) ∧
      (Bridge.succeedsB env "get_trending_stocks" args = false →
        (Bridge.analyzeRun env message "get_trending_stocks" args).attempts
          = [("get_trending_stocks", args),
             ("search_symbols", Bridge.searchArgs message)]) ∧
      (Bridge.succeedsB env "search_symbols" args = false →
        (Bridge.analyzeRun env message "search_symbols" args).attempts
          = [("search_symbols", args), ("get_trending_stocks", args)]) ∧
      (Bridge.succeedsB env "get_screener" args = false →
        (Bridge.succeedsB env "get_trending_stocks" args = true →
          (Bridge.analyzeRun env message "get_screener" args).attempts
            = [("get_screener", args), ("get_trending_stocks", args)]) ∧
        (Bridge.succeedsB env "get_trending_stocks" args = false →
          (Bridge.analyzeRun env message "get_screener" args).attempts
            = [("get_screener", args), ("get_trending_stocks", args),
               ("search_symbols", Bridge.searchArgs message)])) := by
  intro env message args
  refine ⟨?_, ?_, ?_, ?_, ?_⟩
  · intro tool h
    obtain ⟨t, _, _, heq⟩ := analyzeRun_success_state env message tool args h
    rw [heq]
  · intro h
    obtain ⟨r, l, heq⟩ := analyzeRun_fail_state env message "get_quote" args h
    rw [heq, show Bridge.analyzeFallbacks "get_quote" = ["search_symbols"]
      from rfl, runFallbacks_single_attempts]
    rfl
  · intro h
    obtain ⟨r, l, heq⟩ :=
      analyzeRun_fail_state env message "get_trending_stocks" args h
    rw [heq, show Bridge.analyzeFallbacks "get_trending_stocks"
      = ["search_symbols"] from rfl, runFallbacks_single_attempts]
    rfl
  · intro h
    obtain ⟨r, l, heq⟩ :=
      analyzeRun_fail_state env message "search_symbols" args h
    rw [heq, show Bridge.analyzeFallbacks "search_symbols"
      = ["get_trending_stocks"] from rfl, runFallbacks_single_attempts]
    rfl
  · intro h
    obtain ⟨r, l, heq⟩ :=
      analyzeRun_fail_state env message "get_screener" args h
    rw [show Bridge.analyzeFallbacks "get_screener"
      = ["get_trending_stocks", "search_symbols"] from rfl] at heq
    constructor
    · intro h2
      obtain ⟨t2, _, _, heq2⟩ := runFallbacks_cons_success env message
        "get_trending_stocks" ["search_symbols"]
        ⟨"get_screener", args, r, l, [("get_screener", args)]⟩ (by exact h2)
      rw [heq, heq2]
      rfl
    · intro h2
      obtain ⟨r2, l2, heq2⟩ := runFallbacks_cons_fail env message
        "get_trending_stocks" ["search_symbols"]
        ⟨"get_screener", args, r, l, [("get_screener", args)]⟩ (by exact h2)
      rw [heq, heq2, runFallbacks_single_attempts]
      rfl

/-- C3, amended, witness: failing screener, succeeding trending — the chain
stops after the first successful alternate. -/
theorem C3_amended_witness :
    (Bridge.analyzeRun
      (fun t _ => if t == "get_screener" then .err "e1"
        else if t == "get_trending_stocks" then .ok (some "data")
        else .err "e2")
      "top stocks" "get_screener" { count := some 5 }).attempts
      = [("get_screener", { count := some 5 }),
         ("get_trending_stocks", { count := some 5 })] :=
  ((C3_amended
      (fun t _ => if t == "get_screener" then .err "e1"
        else if t == "get_trending_stocks" then .ok (some "data")
        else .err "e2")
      "top stocks" { count := some 5 }).2.2.2.2 (by decide)).1 (by decide)

/-- C4, counterexample.  The claim says that when the primary and every
fallback fail the returned result is a structured error with presentation
category `'error'`.  But a primary response that resolves at transport level
while carrying the embedded `'Error:'` marker stays assigned to `response`;
when the sole fallback then rejects, the handler proceeds with the errored
payload as a normal 200 response — its widget type is `'search'` (derived
from the mutated request name), not `'error'`. -/
theorem C4_counterexample :
    Bridge.succeedsB
      (fun t _ => if t == "get_quote" then .ok (some "Error: no data")
        else .err "down") "get_quote" { symbol := some "X" } = false ∧
    Bridge.succeedsB
      (fun t _ => if t == "get_quote" then .ok (some "Error: no data")
        else .err "down") "search_symbols" (Bridge.searchArgs "q") = false ∧
    Bridge.analyzeExec
      (fun t _ => if t == "get_quote" then .ok (some "Error: no data")
        else .err "down")
      [⟨"get_quote", "Get stock quote", ["symbol"]⟩,
       ⟨"search_symbols", "Search for symbols", ["query"]⟩]
      "q" "get_quote" { symbol := some "X" }
      = .ok "search" "get_quote" (some "Error: no data") ∧
    Bridge.widgetTypeOf
      (Bridge.AnalyzeResult.ok "search" "get_quote" (some "Error: no data"))
      ≠ "error" := by
  refine ⟨by decide, by decide, by decide, by decide⟩

/-- C4, amended.  When the primary and every fallback fail **by transport
rejection**, the `/analyze` result is the thrown structured error carrying
the error of the last attempted tool (the last fallback, or the primary when
its category has no alternates), and its widget type is `'error'`.  A
marker-failure inside a transport-successful response instead leaves that
response in place and is returned as a normal result (see the
counterexample). -/
theorem C4_amended :
    ∀ (env : Bridge.MCPEnv) (errf : String → String)
      (registry : List Bridge.ToolSpec) (message tool : String)
      (args : Args),
      (∀ t a, env t a = .err (errf t)) →
      Bridge.analyzeExec env registry message tool args
        = .thrown (errf (Bridge.lastOrDefault
            (Bridge.analyzeFallbacks tool) tool)) ∧
      Bridge.widgetTypeOf
        (Bridge.analyzeExec env registry message tool args) = "error" := by
  intro env errf registry message tool args henv
  have hrun : Bridge.analyzeRun env message tool args
      = Bridge.runFallbacks env message (Bridge.analyzeFallbacks tool)
          ⟨tool, args, none, errf tool, [(tool, args)]⟩ := by
    simp only [Bridge.analyzeRun, henv tool args]
  obtain ⟨hresp, hlast⟩ := runFallbacks_all_err env errf message henv
    (Bridge.analyzeFallbacks tool)
    ⟨tool, args, none, errf tool, [(tool, args)]⟩
  have hmain : Bridge.analyzeExec env registry message tool args
      = .thrown (errf (Bridge.lastOrDefault
          (Bridge.analyzeFallbacks tool) tool)) := by
    simp only [Bridge.analyzeExec]
    rw [hrun, hresp, hlast]
    cases hfbs : Bridge.analyzeFallbacks tool with
    | nil => rfl
    | cons fb rest => rfl
  exact ⟨hmain, by rw [hmain]; rfl⟩

/-- C4, amended, witness: every call rejecting, a screening query's error
names the last alternate of its chain. -/
theorem C4_amended_witness :
    Bridge.analyzeExec (fun t _ => .err (t ++ " down")) [] "q" "get_screener"
      { } = .thrown ("search_symbols" ++ " down") :=
  (C4_amended (fun t _ => .err (t ++ " down")) (fun t => t ++ " down") [] "q"
    "get_screener" { } (fun _ _ => rfl)).1

/-- C10.  When the primary invocation fails and a fallback invocation
succeeds, the 200 response's `widgetType` is derived from the fallback tool
that actually produced the data (the mutated request name), while `toolUsed`
still names the originally selected primary tool — two different tools. -/
theorem C10_fallback_attribution :
    ∀ (env : Bridge.MCPEnv) (registry : List Bridge.ToolSpec)
      (message : String) (args : Args),
      (Bridge.succeedsB env "get_quote" args = false →
        Bridge.succeedsB env "search_symbols" (Bridge.searchArgs message)
          = true →
        Bridge.analyzeExec env registry message "get_quote" args
          = .ok (Bridge.widgetFor registry "search_symbols") "get_quote"
              (Bridge.okTextOf
                (env "search_symbols" (Bridge.searchArgs message))) ∧
        "search_symbols" ≠ "get_quote") ∧
      (Bridge.succeedsB env "get_trending_stocks" args = false →
        Bridge.succeedsB env "search_symbols" (Bridge.searchArgs message)
          = true →
        Bridge.analyzeExec env registry message "get_trending_stocks" args
          = .ok (Bridge.widgetFor registry "search_symbols")
              "get_trending_stocks"
              (Bridge.okTextOf
                (env "search_symbols" (Bridge.searchArgs message))) ∧
        "search_symbols" ≠ "get_trending_stocks") ∧
      (Bridge.succeedsB env "search_symbols" args = false →
        Bridge.succeedsB env "get_trending_stocks" args = true →
        Bridge.analyzeExec env registry message "search_symbols" args
          = .ok (Bridge.widgetFor registry "get_trending_stocks")
              "search_symbols"
              (Bridge.okTextOf (env "get_trending_stocks" args)) ∧
        "get_trending_stocks" ≠ "search_symbols") ∧
      (Bridge.succeedsB env "get_screener" args = false →
        Bridge.succeedsB env "get_trending_stocks" args = true →
        Bridge.analyzeExec env registry message "get_screener" args
          = .ok (Bridge.widgetFor registry "get_trending_stocks")
              "get_screener"
              (Bridge.okTextOf (env "get_trending_stocks" args)) ∧
        "get_trending_stocks" ≠ "get_screener") ∧
      (Bridge.succeedsB env "get_screener" args = false →
        Bridge.succeedsB env "get_trending_stocks" args = false →
        Bridge.succeedsB env "search_symbols" (Bridge.searchArgs message)
          = true →
        Bridge.analyzeExec env registry message "get_screener" args
          = .ok (Bridge.widgetFor registry "search_symbols") "get_screener"
              (Bridge.okTextOf
                (env "search_symbols" (Bridge.searchArgs message))) ∧
        "search_symbols" ≠ "get_screener") := by
  intro env registry message args
  refine ⟨?_, ?_, ?_, ?_, ?_⟩
  · intro h hfb
    obtain ⟨r, l, heq⟩ := analyzeRun_fail_state env message "get_quote" args h
    rw [show Bridge.analyzeFallbacks "get_quote" = ["search_symbols"]
      from rfl] at heq
    obtain ⟨t, henv2, hm, heq2⟩ := runFallbacks_cons_success env message
      "search_symbols" [] ⟨"get_quote", args, r, l, [("get_quote", args)]⟩
      (by exact hfb)
    have henv2' : env "search_symbols" (Bridge.searchArgs message)
        = Bridge.MCPOutcome.ok t := henv2
    refine ⟨?_, by decide⟩
    simp only [Bridge.analyzeExec]
    rw [heq, heq2, henv2']
    rfl
  · intro h hfb
    obtain ⟨r, l, heq⟩ :=
      analyzeRun_fail_state env message "get_trending_stocks" args h
    rw [show Bridge.analyzeFallbacks "get_trending_stocks"
      = ["search_symbols"] from rfl] at heq
    obtain ⟨t, henv2, hm, heq2⟩ := runFallbacks_cons_success env message
      "search_symbols" []
      ⟨"get_trending_stocks", args, r, l, [("get_trending_stocks", args)]⟩
      (by exact hfb)
    have henv2' : env "search_symbols" (Bridge.searchArgs message)
        = Bridge.MCPOutcome.ok t := henv2
    refine ⟨?_, by decide⟩
    simp only [Bridge.analyzeExec]
    rw [heq, heq2, henv2']
    rfl
  · intro h hfb
    obtain ⟨r, l, heq⟩ :=
      analyzeRun_fail_state env message "search_symbols" args h
    rw [show Bridge.analyzeFallbacks "search_symbols"
      = ["get_trending_stocks"] from rfl] at heq
    obtain ⟨t, henv2, hm, heq2⟩ := runFallbacks_cons_success env message
      "get_trending_stocks" []
      ⟨"search_symbols", args, r, l, [("search_symbols", args)]⟩
      (by exact hfb)
    have henv2' : env "get_trending_stocks" args
        = Bridge.MCPOutcome.ok t := henv2
    refine ⟨?_, by decide⟩
    simp only [Bridge.analyzeExec]
    rw [heq, heq2, henv2']
    rfl
  · intro h hfb
    obtain ⟨r, l, heq⟩ :=
      analyzeRun_fail_state env message "get_screener" args h
    rw [show Bridge.analyzeFallbacks "get_screener"
      = ["get_trending_stocks", "search_symbols"] from rfl] at heq
    obtain ⟨t, henv2, hm, heq2⟩ := runFallbacks_cons_success env message
      "get_trending_stocks" ["search_symbols"]
      ⟨"get_screener", args, r, l, [("get_screener", args)]⟩ (by exact hfb)
    have henv2' : env "get_trending_stocks" args
        = Bridge.MCPOutcome.ok t := henv2
    refine ⟨?_, by decide⟩
    simp only [Bridge.analyzeExec]
    rw [heq, heq2, henv2']
    rfl
  · intro h h2 hfb
    obtain ⟨r, l, heq⟩ :=
      analyzeRun_fail_state env message "get_screener" args h
    rw [show Bridge.analyzeFallbacks "get_screener"
      = ["get_trending_stocks", "search_symbols"] from rfl] at heq
    obtain ⟨r2, l2, heq2⟩ := runFallbacks_cons_fail env message
      "get_trending_stocks" ["search_symbols"]
      ⟨"get_screener", args, r, l, [("get_screener", args)]⟩ (by exact h2)
    obtain ⟨t, henv3, hm3, heq3⟩ := runFallbacks_cons_success env message
      "search_symbols" []
      ⟨"get_trending_stocks",
       Bridge.fbArgs message "get_trending_stocks"
         (Bridge.LoopState.reqArgs
           ⟨"get_screener", args, r, l, [("get_screener", args)]⟩),
       r2, l2,
       Bridge.LoopState.attempts
           ⟨"get_screener", args, r, l, [("get_screener", args)]⟩ ++
         [("get_trending_stocks",
           Bridge.fbArgs message "get_trending_stocks"
             (Bridge.LoopState.reqArgs
               ⟨"get_screener", args, r, l, [("get_screener", args)]⟩))]⟩
      (by exact hfb)
    have henv3' : env "search_symbols" (Bridge.searchArgs message)
        = Bridge.MCPOutcome.ok t := henv3
    refine ⟨?_, by decide⟩
    simp only [Bridge.analyzeExec]
    rw [heq, heq2, heq3, henv3']
    rfl

/-- C10, witness: failing quote, succeeding search fallback — the widget
type comes from the search tool, `toolUsed` stays `get_quote`. -/
theorem C10_witness :
    Bridge.analyzeExec
      (fun t _ => if t == "search_symbols" then .ok (some "found")
        else .err "x")
      [⟨"get_quote", "Get stock quote", ["symbol"]⟩,
       ⟨"search_symbols", "Search for symbols", ["query"]⟩]
      "find apple" "get_quote" { symbol := some "X" }
      = .ok (Bridge.widgetFor
          [⟨"get_quote", "Get stock quote", ["symbol"]⟩,
           ⟨"search_symbols", "Search for symbols", ["query"]⟩]
          "search_symbols") "get_quote"
          (Bridge.okTextOf
            ((fun t (_ : Args) =>
                if t == "search_symbols"
                then Bridge.MCPOutcome.ok (some "found")
                else Bridge.MCPOutcome.err "x") "search_symbols"
              (Bridge.searchArgs "find apple"))) ∧
    "search_symbols" ≠ "get_quote" :=
  ((C10_fallback_attribution
      (fun t _ => if t == "search_symbols" then .ok (some "found")
        else .err "x")
      [⟨"get_quote", "Get stock quote", ["symbol"]⟩,
       ⟨"search_symbols", "Search for symbols", ["query"]⟩]
      "find apple" { symbol := some "X" }).1 (by decide) (by decide))
